import Mathlib

/-!
Verification of the p3a `png2blit` image-to-code compiler.

The development shallowly embeds the algorithmic core of
`scripts/png2blit.py` and of the C routines that script emits:

* identifier sanitization (`sanitize_c_identifier`),
* the pixel-table encoding (`format_pixel_array` / the emitted constant
  table) and its decoding,
* the three generated blit routines (`..._blit_rgb888`,
  `..._blit_rgb888_<N>x`, `..._blit_rgb888_alpha`), modelled as the list
  of byte writes they perform on the destination buffer, together with a
  semantics `applyWrites` applying those writes to a byte-addressed
  buffer,
* the `convert_png_to_blit` driver's error behaviour.

Python strings are modelled as lists of Unicode code points
(`List Nat`); the pixel table (a C `uint8_t[]`) is modelled as a total
function `Int → Nat` whose values are bytes (`≤ 255`) for real tables.
All machine arithmetic in the embedded C code is done on non-negative
operands wherever it matters, so `Int` / `Nat` arithmetic with explicit
`% 256` at the single `uint8_t` cast is an exact model.
-/

/-! ## Identifier sanitization (`sanitize_c_identifier`) -/

/-- Code-point test for the regex character class `[a-zA-Z0-9_]` used by
`re.sub(r'[^a-zA-Z0-9_]', '_', name)`. -/
def pyIsWordChar (c : Nat) : Bool :=
  decide ((65 ≤ c ∧ c ≤ 90) ∨ (97 ≤ c ∧ c ≤ 122) ∨ (48 ≤ c ∧ c ≤ 57) ∨ c = 95)

/-- Step 1 of `sanitize_c_identifier`: replace every character outside
`[a-zA-Z0-9_]` by an underscore (code point 95). -/
def replaceNonWord (s : List Nat) : List Nat :=
  s.map (fun c => if pyIsWordChar c then c else 95)

/-- Step 2 of `sanitize_c_identifier`: `re.sub(r'_+', '_', s)` — collapse
every run of underscores to a single underscore.  An underscore that is
immediately followed by another underscore is dropped. -/
def collapseUnderscores : List Nat → List Nat
  | [] => []
  | [c] => [c]
  | a :: b :: rest =>
      if a = 95 ∧ b = 95 then collapseUnderscores (b :: rest)
      else a :: collapseUnderscores (b :: rest)

/-- Step 3 of `sanitize_c_identifier`: `s.strip('_')` — remove leading and
trailing underscores. -/
def stripUnderscores (s : List Nat) : List Nat :=
  ((s.dropWhile (fun c => c == 95)).reverse.dropWhile (fun c => c == 95)).reverse

/-- Code-point model of lowercasing as `str.lower()` acts on the
characters that can reach it here (the string is already restricted to
`[A-Za-z0-9_]`, on which Unicode lowercasing is exactly ASCII
lowercasing). -/
def pyLowerChar (c : Nat) : Nat :=
  if 65 ≤ c ∧ c ≤ 90 then c + 32 else c

/-- Fallback identifier used when sanitization yields the empty string:
the code points of the literal `"image"`. -/
def defaultIdent : List Nat := [105, 109, 97, 103, 101]

/-- Code-point test for `str.isdigit()` as it acts on the characters that
can reach it here (first character of a `[A-Za-z0-9_]` string). -/
def pyIsDigit (c : Nat) : Bool := decide (48 ≤ c ∧ c ≤ 57)

/-- Model of `sanitize_c_identifier` from `scripts/png2blit.py`:
replace invalid characters, collapse underscore runs, strip outer
underscores, fall back to `"image"` when empty, prepend an underscore
when the first character is a digit, and lowercase. -/
def sanitize_c_identifier (s : List Nat) : List Nat :=
  let t := stripUnderscores (collapseUnderscores (replaceNonWord s))
  let t := if t = [] then defaultIdent else t
  let t :=
    match t with
    | [] => t
    | c :: _ => if pyIsDigit c then 95 :: t else t
  t.map pyLowerChar

/-- Characters allowed in the final sanitized identifier:
lowercase letters, digits, underscore. -/
def isLowerIdentChar (c : Nat) : Bool :=
  decide ((97 ≤ c ∧ c ≤ 122) ∨ (48 ≤ c ∧ c ≤ 57) ∨ c = 95)

lemma mem_collapseUnderscores {c : Nat} :
    ∀ {s : List Nat}, c ∈ collapseUnderscores s → c ∈ s
  | [], h => by simp [collapseUnderscores] at h
  | [a], h => by simpa [collapseUnderscores] using h
  | a :: b :: rest, h => by
      by_cases hab : a = 95 ∧ b = 95
      · rw [collapseUnderscores, if_pos hab] at h
        exact List.mem_cons_of_mem a (mem_collapseUnderscores h)
      · rw [collapseUnderscores, if_neg hab] at h
        rcases List.mem_cons.mp h with h | h
        · exact h ▸ List.mem_cons_self a _
        · exact List.mem_cons_of_mem a (mem_collapseUnderscores h)

lemma mem_stripUnderscores {c : Nat} {s : List Nat}
    (h : c ∈ stripUnderscores s) : c ∈ s := by
  unfold stripUnderscores at h
  rw [List.mem_reverse] at h
  have h1 := (List.dropWhile_sublist (l := (s.dropWhile (fun c => c == 95)).reverse)
    (p := fun c => c == 95)).mem h
  rw [List.mem_reverse] at h1
  exact (List.dropWhile_sublist (l := s) (p := fun c => c == 95)).mem h1

lemma sanitize_chars_word {s : List Nat} {c : Nat}
    (h : c ∈ stripUnderscores (collapseUnderscores (replaceNonWord s))) :
    pyIsWordChar c = true := by
  have h1 := mem_collapseUnderscores (mem_stripUnderscores h)
  rcases List.mem_map.mp h1 with ⟨a, _, ha⟩
  by_cases hw : pyIsWordChar a
  · rw [if_pos hw] at ha; exact ha ▸ hw
  · rw [if_neg hw] at ha; subst ha; decide

lemma pyLowerChar_word {c : Nat} (h : pyIsWordChar c = true) :
    isLowerIdentChar (pyLowerChar c) = true := by
  simp only [pyIsWordChar, decide_eq_true_eq] at h
  simp only [isLowerIdentChar, pyLowerChar, decide_eq_true_eq]
  split <;> omega

lemma pyLowerChar_not_digit {c : Nat}
    (h : pyIsDigit c = false) : pyIsDigit (pyLowerChar c) = false := by
  simp only [pyIsDigit, decide_eq_false_iff_not, decide_eq_true_eq] at *
  simp only [pyLowerChar]
  split <;> omega

lemma sanitize_core (s : List Nat) :
    ∃ l : List Nat,
      sanitize_c_identifier s = l.map pyLowerChar ∧ l ≠ [] ∧
      (∀ c ∈ l, pyIsWordChar c = true) ∧
      (∀ c rest, l = c :: rest → pyIsDigit c = false) := by
  have htw : ∀ c ∈ stripUnderscores (collapseUnderscores (replaceNonWord s)),
      pyIsWordChar c = true := fun c hc => sanitize_chars_word hc
  unfold sanitize_c_identifier
  cases ht : stripUnderscores (collapseUnderscores (replaceNonWord s)) with
  | nil =>
      refine ⟨defaultIdent, by simp [ht]; decide, by decide, by decide, ?_⟩
      intro c rest hcr
      rw [show defaultIdent = 105 :: [109, 97, 103, 101] from rfl] at hcr
      injection hcr with h1 _
      subst h1
      decide
  | cons a tl =>
      rw [ht] at htw
      by_cases hd : pyIsDigit a
      · refine ⟨95 :: a :: tl, by simp [ht, hd], by simp, ?_, ?_⟩
        · intro c hc
          rcases List.mem_cons.mp hc with rfl | hc
          · decide
          · exact htw c hc
        · intro c rest hcr
          injection hcr with h1 _
          subst h1
          decide
      · refine ⟨a :: tl, by simp [ht, hd], by simp, htw, ?_⟩
        intro c rest hcr
        injection hcr with h1 _
        subst h1
        simpa using hd

/-- C9: identifier sanitization is total and never fails: for every input
string it returns a non-empty identifier consisting only of letters,
digits and underscores that does not start with a digit, falling back to
the fixed default name when sanitization yields an empty result; the code
points of the string `"My Logo!!"` map to those of `"my_logo"`, the ones
of `"123abc"` to `"_123abc"`, and `"___"` maps to the fallback default
name `"image"`. -/
theorem claim_C9_sanitize_total :
    ∀ s : List Nat,
      sanitize_c_identifier s ≠ [] ∧
      (∀ c ∈ sanitize_c_identifier s, isLowerIdentChar c = true) ∧
      (∀ c rest, sanitize_c_identifier s = c :: rest → pyIsDigit c = false) ∧
      sanitize_c_identifier [77, 121, 32, 76, 111, 103, 111, 33, 33] =
        [109, 121, 95, 108, 111, 103, 111] ∧
      sanitize_c_identifier [49, 50, 51, 97, 98, 99] =
        [95, 49, 50, 51, 97, 98, 99] ∧
      sanitize_c_identifier [95, 95, 95] = defaultIdent := by
  intro s
  obtain ⟨l, hl, hne, hword, hhead⟩ := sanitize_core s
  refine ⟨?_, ?_, ?_, by decide, by decide, by decide⟩
  · rw [hl]
    simpa using hne
  · intro c hc
    rw [hl] at hc
    rcases List.mem_map.mp hc with ⟨a, ha, rfl⟩
    exact pyLowerChar_word (hword a ha)
  · intro c rest hcr
    rw [hl] at hcr
    cases l with
    | nil => simp at hcr
    | cons a tl =>
        rw [List.map_cons] at hcr
        injection hcr with h1 _
        exact h1 ▸ pyLowerChar_not_digit (hhead a tl rfl)

/-! ## Blit engine

The generated C routines mutate a caller-owned byte buffer.  Each routine
is modelled as the list of byte writes it performs, in program order.  A
write records the destination pixel coordinates `(row, col)` and channel
`chan` targeted (the C code addresses the byte
`dst + row * dst_stride_bytes + col * 3 + chan`), the index `sIdx` into
the embedded pixel table that the written value was read from, and the
written value `val`.  `applyWrites` replays such a list on a
byte-addressed buffer, giving the routine's effect on memory. -/

/-- One byte write performed by a generated blit routine. -/
structure BlitWrite where
  row : Int
  col : Int
  chan : Nat
  sIdx : Int
  val : Nat
deriving DecidableEq, Repr

/-- Byte address of a write in the destination buffer, exactly as the C
code computes it: `row * dst_stride_bytes + col * 3 + chan`. -/
def writeAddr (stride : Int) (wr : BlitWrite) : Int :=
  wr.row * stride + wr.col * 3 + wr.chan

/-- Replay a list of writes on a byte-addressed destination buffer. -/
def applyWrites (stride : Int) (ws : List BlitWrite) (buf : Int → Nat) : Int → Nat :=
  ws.foldl (fun b wr => fun a => if a = writeAddr stride wr then wr.val else b a) buf

/-- Result of the unscaled clipping computation shared by
`..._blit_rgb888` and the unscaled branch of `..._blit_rgb888_alpha`:
source start column/row, clamped destination origin, and clipped copy
size. -/
structure ClipU where
  srcX : Int
  srcY : Int
  dstX : Int
  dstY : Int
  copyW : Int
  copyH : Int

/-- Transcription of the clipping prologue of the generated
`..._blit_rgb888` (and of the unscaled branch of
`..._blit_rgb888_alpha`): clip the left, top, right and bottom edges in
that order. -/
def clipUnscaled (srcW srcH dstW dstH x y : Int) : ClipU :=
  let srcX : Int := 0
  let srcY : Int := 0
  let copyW := srcW
  let copyH := srcH
  -- clip left edge
  let srcX := if x < 0 then -x else srcX
  let copyW := if x < 0 then copyW + x else copyW
  let x := if x < 0 then 0 else x
  -- clip top edge
  let srcY := if y < 0 then -y else srcY
  let copyH := if y < 0 then copyH + y else copyH
  let y := if y < 0 then 0 else y
  -- clip right edge
  let copyW := if x + copyW > dstW then dstW - x else copyW
  -- clip bottom edge
  let copyH := if y + copyH > dstH then dstH - y else copyH
  ⟨srcX, srcY, x, y, copyW, copyH⟩

/-- Writes performed by the generated `..._blit_rgb888` routine on an
image of size `w × h` whose pixel table is `pix`.  The row-wise
`memcpy(dst_row, src_row, copy_w * 3)` is modelled byte by byte: byte
`b = i * 3 + ch` of the row copy targets destination column
`dst_x + i`, channel `ch`, and reads table byte
`(src_y + j) * (src_w * 3) + (src_x + i) * 3 + ch`, in the same order
and at the same addresses as the bulk copy. -/
def blit_rgb888_writes (w h : Nat) (pix : Int → Nat) (dstW dstH x y : Int) :
    List BlitWrite :=
  let c := clipUnscaled w h dstW dstH x y
  -- if fully clipped, nothing to draw
  if c.copyW ≤ 0 ∨ c.copyH ≤ 0 then []
  else
    (List.range c.copyH.toNat).flatMap (fun (j : Nat) =>
      (List.range c.copyW.toNat).flatMap (fun (i : Nat) =>
        (List.range 3).map (fun (ch : Nat) =>
          let sIdx : Int := (c.srcY + j) * (w * 3) + (c.srcX + i) * 3 + ch
          { row := c.dstY + j, col := c.dstX + i, chan := ch,
            sIdx := sIdx, val := pix sIdx })))

/-- Result of the scaled clipping computation shared by
`..._blit_rgb888_<N>x` and the scaled branch of
`..._blit_rgb888_alpha`: the clipped destination window
`[x0, x1) × [y0, y1)`. -/
structure ClipS where
  x0 : Int
  y0 : Int
  x1 : Int
  y1 : Int

/-- Transcription of the clipping prologue of the generated scaled blit:
place a `scaledW × scaledH` rectangle at `(x, y)` and clamp it to the
destination bounds. -/
def clipScaled (scaledW scaledH dstW dstH x y : Int) : ClipS :=
  let dstX0 := x
  let dstY0 := y
  let dstX1 := x + scaledW
  let dstY1 := y + scaledH
  -- clip to destination bounds
  let dstX0 := if dstX0 < 0 then 0 else dstX0
  let dstY0 := if dstY0 < 0 then 0 else dstY0
  let dstX1 := if dstX1 > dstW then dstW else dstX1
  let dstY1 := if dstY1 > dstH then dstH else dstY1
  ⟨dstX0, dstY0, dstX1, dstY1⟩

/-- Writes performed by the generated `..._blit_rgb888_<N>x` routine
(`scale` is the factor baked in at generation time; the generator only
emits 2 ≤ scale ≤ 16).  For each destination pixel of the clipped window
the three channels of source pixel
`((dx - x) / scale, (dy - y) / scale)` are copied verbatim; inside the
loops `dx - x` and `dy - y` are non-negative, so C truncating division
coincides with the `Int` division used here. -/
def blit_rgb888_scaled_writes (w h : Nat) (pix : Int → Nat) (scale : Int)
    (dstW dstH x y : Int) : List BlitWrite :=
  let c := clipScaled (w * scale) (h * scale) dstW dstH x y
  -- if fully clipped, nothing to draw
  if c.x0 ≥ c.x1 ∨ c.y0 ≥ c.y1 then []
  else
    (List.range (c.y1 - c.y0).toNat).flatMap (fun (jy : Nat) =>
      let dy := c.y0 + jy
      let srcY := (dy - y) / scale
      (List.range (c.x1 - c.x0).toNat).flatMap (fun (jx : Nat) =>
        let dx := c.x0 + jx
        let srcX := (dx - x) / scale
        (List.range 3).map (fun (ch : Nat) =>
          let sIdx : Int := (srcY * w + srcX) * 3 + ch
          { row := dy, col := dx, chan := ch, sIdx := sIdx, val := pix sIdx })))

/-- Background colour channel lookup of the generated
`..._blit_rgb888_alpha`: channel 0 is `bg_r`, channel 1 is `bg_g`,
channel 2 is `bg_b` (the table is emitted in RGB order). -/
def bgChannel (bgR bgG bgB : Nat) (ch : Nat) : Nat :=
  if ch = 0 then bgR else if ch = 1 then bgG else bgB

/-- Writes performed by the generated `..._blit_rgb888_alpha` routine.
`alpha`, `bg_r`, `bg_g`, `bg_b` are `uint8_t` parameters (values
`≤ 255`); `scale ≤ 1` selects the unscaled branch, otherwise the scaled
branch is taken.  Every written byte is
`(uint8_t)((src * alpha + bg * inv_alpha + 127) / 255)` with
`inv_alpha = 255 - alpha`; the `uint8_t` cast is the `% 256`. -/
def blit_rgb888_alpha_writes (w h : Nat) (pix : Int → Nat) (dstW dstH x y : Int)
    (alpha bgR bgG bgB : Nat) (scale : Int) : List BlitWrite :=
  let invAlpha := 255 - alpha
  -- treat scale <= 1 as no scaling
  if scale ≤ 1 then
    let c := clipUnscaled w h dstW dstH x y
    if c.copyW ≤ 0 ∨ c.copyH ≤ 0 then []
    else
      (List.range c.copyH.toNat).flatMap (fun (j : Nat) =>
        (List.range c.copyW.toNat).flatMap (fun (i : Nat) =>
          (List.range 3).map (fun (ch : Nat) =>
            let sIdx : Int := (c.srcY + j) * (w * 3) + (c.srcX + i) * 3 + ch
            { row := c.dstY + j, col := c.dstX + i, chan := ch, sIdx := sIdx,
              val := (pix sIdx * alpha + bgChannel bgR bgG bgB ch * invAlpha + 127)
                       / 255 % 256 })))
  else
    let c := clipScaled (w * scale) (h * scale) dstW dstH x y
    if c.x0 ≥ c.x1 ∨ c.y0 ≥ c.y1 then []
    else
      (List.range (c.y1 - c.y0).toNat).flatMap (fun (jy : Nat) =>
        let dy := c.y0 + jy
        let srcY := (dy - y) / scale
        (List.range (c.x1 - c.x0).toNat).flatMap (fun (jx : Nat) =>
          let dx := c.x0 + jx
          let srcX := (dx - x) / scale
          (List.range 3).map (fun (ch : Nat) =>
            let sIdx : Int := (srcY * w + srcX) * 3 + ch
            { row := dy, col := dx, chan := ch, sIdx := sIdx,
              val := (pix sIdx * alpha + bgChannel bgR bgG bgB ch * invAlpha + 127)
                       / 255 % 256 })))

lemma applyWrites_cons (stride : Int) (wr : BlitWrite) (ws : List BlitWrite)
    (buf : Int → Nat) :
    applyWrites stride (wr :: ws) buf =
      applyWrites stride ws
        (fun a => if a = writeAddr stride wr then wr.val else buf a) := rfl

lemma applyWrites_frame {stride : Int} {ws : List BlitWrite} {a : Int}
    (h : ∀ wr ∈ ws, writeAddr stride wr ≠ a) (buf : Int → Nat) :
    applyWrites stride ws buf a = buf a := by
  induction ws generalizing buf with
  | nil => rfl
  | cons wr rest ih =>
      rw [applyWrites_cons,
        ih (fun w2 hw2 => h w2 (List.mem_cons_of_mem _ hw2))]
      exact if_neg (fun hEq => (h wr (List.mem_cons_self wr rest)) hEq.symm)

lemma applyWrites_hit {stride : Int} {ws : List BlitWrite} {a : Int}
    (g : Int → Nat)
    (hval : ∀ wr ∈ ws, writeAddr stride wr = a → wr.val = g a)
    (hhit : ∃ wr ∈ ws, writeAddr stride wr = a) (buf : Int → Nat) :
    applyWrites stride ws buf a = g a := by
  induction ws generalizing buf with
  | nil =>
      rcases hhit with ⟨wr, h1, _⟩
      simp at h1
  | cons wr rest ih =>
      by_cases hr : ∃ w2 ∈ rest, writeAddr stride w2 = a
      · exact ih (fun w2 hw2 => hval w2 (List.mem_cons_of_mem _ hw2)) hr _
      · have hwra : writeAddr stride wr = a := by
          rcases hhit with ⟨w2, hw2, he⟩
          rcases List.mem_cons.mp hw2 with rfl | hw2
          · exact he
          · exact absurd ⟨w2, hw2, he⟩ hr
        rw [applyWrites_cons,
          applyWrites_frame (fun w2 hw2 he => hr ⟨w2, hw2, he⟩)]
        rw [if_pos hwra.symm]
        exact hval wr (List.mem_cons_self _ _) hwra

lemma clipUnscaled_eq (srcW srcH dstW dstH x y : Int) :
    clipUnscaled srcW srcH dstW dstH x y =
      ⟨max 0 (-x), max 0 (-y), max x 0, max y 0,
       min (srcW - max 0 (-x)) (dstW - max x 0),
       min (srcH - max 0 (-y)) (dstH - max y 0)⟩ := by
  unfold clipUnscaled
  split_ifs <;> simp only [ClipU.mk.injEq] <;> omega

lemma clipScaled_eq (scaledW scaledH dstW dstH x y : Int) :
    clipScaled scaledW scaledH dstW dstH x y =
      ⟨max x 0, max y 0, min (x + scaledW) dstW, min (y + scaledH) dstH⟩ := by
  unfold clipScaled
  dsimp only
  split_ifs <;> simp only [ClipS.mk.injEq] <;> omega

lemma length_nested {α : Type} (n m k : Nat) (f : Nat → Nat → Nat → α) :
    ((List.range n).flatMap (fun j =>
      (List.range m).flatMap (fun i =>
        (List.range k).map (f j i)))).length = n * m * k := by
  simp [List.length_flatMap, Function.comp_def, List.map_const', List.sum_replicate,
    smul_eq_mul, mul_assoc]

lemma blit_rgb888_writes_eq (w h : Nat) (pix : Int → Nat) (dstW dstH x y : Int) :
    blit_rgb888_writes w h pix dstW dstH x y =
      if min (↑w - max 0 (-x)) (dstW - max x 0) ≤ 0 ∨
         min (↑h - max 0 (-y)) (dstH - max y 0) ≤ 0 then []
      else
        (List.range (min (↑h - max 0 (-y)) (dstH - max y 0)).toNat).flatMap
          (fun (j : Nat) =>
            (List.range (min (↑w - max 0 (-x)) (dstW - max x 0)).toNat).flatMap
              (fun (i : Nat) =>
                (List.range 3).map (fun (ch : Nat) =>
                  let sIdx : Int := (max 0 (-y) + j) * (w * 3) + (max 0 (-x) + i) * 3 + ch
                  { row := max y 0 + j, col := max x 0 + i, chan := ch,
                    sIdx := sIdx, val := pix sIdx }))) := by
  unfold blit_rgb888_writes
  rw [clipUnscaled_eq]

lemma blit_rgb888_scaled_writes_eq (w h : Nat) (pix : Int → Nat) (scale : Int)
    (dstW dstH x y : Int) :
    blit_rgb888_scaled_writes w h pix scale dstW dstH x y =
      if max x 0 ≥ min (x + ↑w * scale) dstW ∨
         max y 0 ≥ min (y + ↑h * scale) dstH then []
      else
        (List.range (min (y + ↑h * scale) dstH - max y 0).toNat).flatMap
          (fun (jy : Nat) =>
            let dy := max y 0 + jy
            let srcY := (dy - y) / scale
            (List.range (min (x + ↑w * scale) dstW - max x 0).toNat).flatMap
              (fun (jx : Nat) =>
                let dx := max x 0 + jx
                let srcX := (dx - x) / scale
                (List.range 3).map (fun (ch : Nat) =>
                  let sIdx : Int := (srcY * w + srcX) * 3 + ch
                  { row := dy, col := dx, chan := ch, sIdx := sIdx,
                    val := pix sIdx }))) := by
  unfold blit_rgb888_scaled_writes
  rw [clipScaled_eq]

lemma blit_rgb888_alpha_writes_eq (w h : Nat) (pix : Int → Nat)
    (dstW dstH x y : Int) (alpha bgR bgG bgB : Nat) (scale : Int) :
    blit_rgb888_alpha_writes w h pix dstW dstH x y alpha bgR bgG bgB scale =
      if scale ≤ 1 then
        if min (↑w - max 0 (-x)) (dstW - max x 0) ≤ 0 ∨
           min (↑h - max 0 (-y)) (dstH - max y 0) ≤ 0 then []
        else
          (List.range (min (↑h - max 0 (-y)) (dstH - max y 0)).toNat).flatMap
            (fun (j : Nat) =>
              (List.range (min (↑w - max 0 (-x)) (dstW - max x 0)).toNat).flatMap
                (fun (i : Nat) =>
                  (List.range 3).map (fun (ch : Nat) =>
                    let sIdx : Int := (max 0 (-y) + j) * (w * 3) + (max 0 (-x) + i) * 3 + ch
                    { row := max y 0 + j, col := max x 0 + i, chan := ch, sIdx := sIdx,
                      val := (pix sIdx * alpha + bgChannel bgR bgG bgB ch * (255 - alpha)
                               + 127) / 255 % 256 })))
      else
        if max x 0 ≥ min (x + ↑w * scale) dstW ∨
           max y 0 ≥ min (y + ↑h * scale) dstH then []
        else
          (List.range (min (y + ↑h * scale) dstH - max y 0).toNat).flatMap
            (fun (jy : Nat) =>
              let dy := max y 0 + jy
              let srcY := (dy - y) / scale
              (List.range (min (x + ↑w * scale) dstW - max x 0).toNat).flatMap
                (fun (jx : Nat) =>
                  let dx := max x 0 + jx
                  let srcX := (dx - x) / scale
                  (List.range 3).map (fun (ch : Nat) =>
                    let sIdx : Int := (srcY * w + srcX) * 3 + ch
                    { row := dy, col := dx, chan := ch, sIdx := sIdx,
                      val := (pix sIdx * alpha + bgChannel bgR bgG bgB ch * (255 - alpha)
                               + 127) / 255 % 256 }))) := by
  unfold blit_rgb888_alpha_writes
  rw [clipUnscaled_eq, clipScaled_eq]

lemma bgChannel_le {bgR bgG bgB : Nat} (hr : bgR ≤ 255) (hg : bgG ≤ 255)
    (hb : bgB ≤ 255) (ch : Nat) : bgChannel bgR bgG bgB ch ≤ 255 := by
  unfold bgChannel
  split_ifs <;> assumption

lemma blend_val_lt {p b alpha : Nat} (hp : p ≤ 255) (hb : b ≤ 255)
    (ha : alpha ≤ 255) :
    (p * alpha + b * (255 - alpha) + 127) / 255 < 256 := by
  have h1 : p * alpha ≤ 255 * alpha := Nat.mul_le_mul_right _ hp
  have h2 : b * (255 - alpha) ≤ 255 * (255 - alpha) := Nat.mul_le_mul_right _ hb
  have h4 : p * alpha + b * (255 - alpha) + 127 ≤ 65152 := by omega
  calc (p * alpha + b * (255 - alpha) + 127) / 255
      ≤ 65152 / 255 := Nat.div_le_div_right h4
    _ < 256 := by norm_num

/-- Pixel table of the 1×1 example image whose single pixel is
`(200, 100, 50)`. -/
def pixExample : Int → Nat :=
  fun i => if i = 0 then 200 else if i = 1 then 100 else 50

/-- C1: for every call to `blit_blend` with `0 < alpha < 255`, every output
channel it writes — in both the unscaled path (`scale ≤ 1`) and the scaled
path (`scale ≥ 2`) — equals `(src*alpha + bg*(255-alpha) + 127) / 255`
computed with truncating integer division, where `src` is the pixel-table
byte the write read (`pix wr.sIdx`) and `bg` the corresponding background
channel; in particular `alpha = 128`, source pixel `(200, 100, 50)`,
background `(0, 0, 0)` yields output channels `(100, 50, 25)`, on the
unscaled path and on the `scale = 2` path alike. -/
theorem claim_C1_blend_rounding (w h : Nat) (pix : Int → Nat)
    (dstW dstH x y : Int) (alpha bgR bgG bgB : Nat) (scale : Int)
    (hpix : ∀ i : Int, pix i ≤ 255)
    (hbgR : bgR ≤ 255) (hbgG : bgG ≤ 255) (hbgB : bgB ≤ 255)
    (h0 : 0 < alpha) (h1 : alpha < 255) :
    (∀ wr ∈ blit_rgb888_alpha_writes w h pix dstW dstH x y alpha bgR bgG bgB scale,
      wr.val = (pix wr.sIdx * alpha +
                bgChannel bgR bgG bgB wr.chan * (255 - alpha) + 127) / 255) ∧
    blit_rgb888_alpha_writes 1 1 pixExample 1 1 0 0 128 0 0 0 0 =
      [⟨0, 0, 0, 0, 100⟩, ⟨0, 0, 1, 1, 50⟩, ⟨0, 0, 2, 2, 25⟩] ∧
    blit_rgb888_alpha_writes 1 1 pixExample 2 2 0 0 128 0 0 0 2 =
      [⟨0, 0, 0, 0, 100⟩, ⟨0, 0, 1, 1, 50⟩, ⟨0, 0, 2, 2, 25⟩,
       ⟨0, 1, 0, 0, 100⟩, ⟨0, 1, 1, 1, 50⟩, ⟨0, 1, 2, 2, 25⟩,
       ⟨1, 0, 0, 0, 100⟩, ⟨1, 0, 1, 1, 50⟩, ⟨1, 0, 2, 2, 25⟩,
       ⟨1, 1, 0, 0, 100⟩, ⟨1, 1, 1, 1, 50⟩, ⟨1, 1, 2, 2, 25⟩] := by
  refine ⟨?_, by decide, by decide⟩
  intro wr hwr
  rw [blit_rgb888_alpha_writes_eq] at hwr
  have hmod : ∀ sIdx : Int, ∀ ch : Nat,
      (pix sIdx * alpha + bgChannel bgR bgG bgB ch * (255 - alpha) + 127) / 255 % 256 =
      (pix sIdx * alpha + bgChannel bgR bgG bgB ch * (255 - alpha) + 127) / 255 :=
    fun sIdx ch => Nat.mod_eq_of_lt
      (blend_val_lt (hpix sIdx) (bgChannel_le hbgR hbgG hbgB ch) h1.le)
  split_ifs at hwr with hs hg hg
  · simp at hwr
  · simp only [List.mem_flatMap, List.mem_map, List.mem_range] at hwr
    obtain ⟨j, hj, i, hi, ch, hch, rfl⟩ := hwr
    exact hmod _ _
  · simp at hwr
  · simp only [List.mem_flatMap, List.mem_map, List.mem_range] at hwr
    obtain ⟨jy, hjy, jx, hjx, ch, hch, rfl⟩ := hwr
    exact hmod _ _

/-- Witness for C1 at a concrete input: a 1×1 image with pixel
`(200, 100, 50)` blended unscaled at `(0, 0)` with `alpha = 128` over
background `(0, 0, 0)` writes exactly the channels `(100, 50, 25)`. -/
theorem claim_C1_blend_rounding_witness :
    blit_rgb888_alpha_writes 1 1 pixExample 1 1 0 0 128 0 0 0 0 =
      [⟨0, 0, 0, 0, 100⟩, ⟨0, 0, 1, 1, 50⟩, ⟨0, 0, 2, 2, 25⟩] :=
  (claim_C1_blend_rounding 1 1 pixExample 1 1 0 0 128 0 0 0 0
    (fun i => by simp only [pixExample]; split_ifs <;> omega)
    (by decide) (by decide) (by decide) (by decide) (by decide)).2.1

/-- C6: `blit_blend` with `alpha = 0` ignores image content: for every
origin, destination descriptor and scale, two runs that differ only in
the image's pixel values produce identical write lists (hence identical
destination buffers), and every written byte equals the corresponding
background channel. -/
theorem claim_C6_alpha0_background (w h : Nat) (pix1 pix2 : Int → Nat)
    (dstW dstH x y : Int) (bgR bgG bgB : Nat) (scale : Int)
    (hbgR : bgR ≤ 255) (hbgG : bgG ≤ 255) (hbgB : bgB ≤ 255) :
    blit_rgb888_alpha_writes w h pix1 dstW dstH x y 0 bgR bgG bgB scale =
      blit_rgb888_alpha_writes w h pix2 dstW dstH x y 0 bgR bgG bgB scale ∧
    (∀ wr ∈ blit_rgb888_alpha_writes w h pix1 dstW dstH x y 0 bgR bgG bgB scale,
      wr.val = bgChannel bgR bgG bgB wr.chan) ∧
    (∀ stride : Int, ∀ buf : Int → Nat,
      applyWrites stride
          (blit_rgb888_alpha_writes w h pix1 dstW dstH x y 0 bgR bgG bgB scale) buf =
        applyWrites stride
          (blit_rgb888_alpha_writes w h pix2 dstW dstH x y 0 bgR bgG bgB scale) buf) := by
  have e1 : blit_rgb888_alpha_writes w h pix1 dstW dstH x y 0 bgR bgG bgB scale =
      blit_rgb888_alpha_writes w h pix2 dstW dstH x y 0 bgR bgG bgB scale := by
    rw [blit_rgb888_alpha_writes_eq, blit_rgb888_alpha_writes_eq]
    simp only [Nat.mul_zero, Nat.zero_add, Nat.sub_zero]
  refine ⟨e1, ?_, fun stride buf => by rw [e1]⟩
  intro wr hwr
  rw [blit_rgb888_alpha_writes_eq] at hwr
  have hval : ∀ sIdx : Int, ∀ ch : Nat,
      (pix1 sIdx * 0 + bgChannel bgR bgG bgB ch * (255 - 0) + 127) / 255 % 256 =
        bgChannel bgR bgG bgB ch := by
    intro sIdx ch
    have hb := bgChannel_le hbgR hbgG hbgB ch
    omega
  split_ifs at hwr with hs hg hg
  · simp at hwr
  · simp only [List.mem_flatMap, List.mem_map, List.mem_range] at hwr
    obtain ⟨j, hj, i, hi, ch, hch, rfl⟩ := hwr
    exact hval _ _
  · simp at hwr
  · simp only [List.mem_flatMap, List.mem_map, List.mem_range] at hwr
    obtain ⟨jy, hjy, jx, hjx, ch, hch, rfl⟩ := hwr
    exact hval _ _

/-- Witness for C6 at a concrete input: with `alpha = 0` and background
`(7, 8, 9)`, the write lists for two different 1×1 images coincide. -/
theorem claim_C6_alpha0_background_witness :
    blit_rgb888_alpha_writes 1 1 pixExample 1 1 0 0 0 7 8 9 0 =
      blit_rgb888_alpha_writes 1 1 (fun _ => 0) 1 1 0 0 0 7 8 9 0 :=
  (claim_C6_alpha0_background 1 1 pixExample (fun _ => 0) 1 1 0 0 7 8 9 0
    (by decide) (by decide) (by decide)).1

/-- C5: `blit_blend` with `alpha = 255` produces, for every origin,
destination descriptor and image, exactly the write list (hence a
byte-for-byte identical destination) of `blit_copy` when `scale ≤ 1`
and of `blit_copy_scaled` with the same scale when `scale ≥ 2`: every
destination pixel in the clipped placed rectangle receives the
corresponding source pixel verbatim. -/
theorem claim_C5_alpha255_verbatim (w h : Nat) (pix : Int → Nat)
    (dstW dstH x y : Int) (bgR bgG bgB : Nat) (scale : Int)
    (hpix : ∀ i : Int, pix i ≤ 255) :
    (scale ≤ 1 →
      blit_rgb888_alpha_writes w h pix dstW dstH x y 255 bgR bgG bgB scale =
        blit_rgb888_writes w h pix dstW dstH x y) ∧
    (2 ≤ scale →
      blit_rgb888_alpha_writes w h pix dstW dstH x y 255 bgR bgG bgB scale =
        blit_rgb888_scaled_writes w h pix scale dstW dstH x y) ∧
    (∀ stride : Int, ∀ buf : Int → Nat, scale ≤ 1 →
      applyWrites stride
          (blit_rgb888_alpha_writes w h pix dstW dstH x y 255 bgR bgG bgB scale) buf =
        applyWrites stride (blit_rgb888_writes w h pix dstW dstH x y) buf) ∧
    (∀ stride : Int, ∀ buf : Int → Nat, 2 ≤ scale →
      applyWrites stride
          (blit_rgb888_alpha_writes w h pix dstW dstH x y 255 bgR bgG bgB scale) buf =
        applyWrites stride (blit_rgb888_scaled_writes w h pix scale dstW dstH x y) buf) := by
  have key : ∀ i : Int, (pix i * 255 + 127) / 255 % 256 = pix i := by
    intro i
    have := hpix i
    omega
  have e1 : scale ≤ 1 →
      blit_rgb888_alpha_writes w h pix dstW dstH x y 255 bgR bgG bgB scale =
        blit_rgb888_writes w h pix dstW dstH x y := by
    intro hs
    rw [blit_rgb888_alpha_writes_eq, blit_rgb888_writes_eq, if_pos hs]
    simp only [Nat.sub_self, Nat.mul_zero, Nat.add_zero, key]
  have e2 : 2 ≤ scale →
      blit_rgb888_alpha_writes w h pix dstW dstH x y 255 bgR bgG bgB scale =
        blit_rgb888_scaled_writes w h pix scale dstW dstH x y := by
    intro hs
    rw [blit_rgb888_alpha_writes_eq, blit_rgb888_scaled_writes_eq,
      if_neg (by omega : ¬ scale ≤ 1)]
    simp only [Nat.sub_self, Nat.mul_zero, Nat.add_zero, key]
  exact ⟨e1, e2, fun stride buf hs => by rw [e1 hs],
    fun stride buf hs => by rw [e2 hs]⟩

/-- Witness for C5 at concrete inputs: on the 1×1 example image with
`alpha = 255`, the blend write list equals the plain copy write list at
`scale = 0`, and equals the scaled copy write list at `scale = 2`. -/
theorem claim_C5_alpha255_verbatim_witness :
    (blit_rgb888_alpha_writes 1 1 pixExample 1 1 0 0 255 7 8 9 0 =
      blit_rgb888_writes 1 1 pixExample 1 1 0 0) ∧
    (blit_rgb888_alpha_writes 1 1 pixExample 2 2 0 0 255 7 8 9 2 =
      blit_rgb888_scaled_writes 1 1 pixExample 2 2 2 0 0) :=
  ⟨(claim_C5_alpha255_verbatim 1 1 pixExample 1 1 0 0 7 8 9 0
      (fun i => by simp only [pixExample]; split_ifs <;> omega)).1 (by decide),
   (claim_C5_alpha255_verbatim 1 1 pixExample 2 2 0 0 7 8 9 2
      (fun i => by simp only [pixExample]; split_ifs <;> omega)).2.1 (by decide)⟩

/-- C2: for every origin `(x, y)` and destination descriptor, `blit_copy`
writes exactly `copy_w * copy_h` destination pixels (three bytes each)
where `src_x = max(0,-x)`, `src_y = max(0,-y)`,
`copy_w = min(width - src_x, dst_w - max(x,0))` and
`copy_h = min(height - src_y, dst_h - max(y,0))`; if `copy_w ≤ 0` or
`copy_h ≤ 0` it writes nothing and signals no error; no write ever
touches a destination column `< 0` or `≥ dst_w`, or a row `< 0` or
`≥ dst_h`, every write stays inside the clipped window, and every
destination byte whose address is hit by no write (including stride
padding between rows) is left unchanged. -/
theorem claim_C2_blit_copy_clipping (w h : Nat) (pix : Int → Nat)
    (dstW dstH x y stride : Int) (buf : Int → Nat) :
    (min (↑w - max 0 (-x)) (dstW - max x 0) ≤ 0 ∨
       min (↑h - max 0 (-y)) (dstH - max y 0) ≤ 0 →
      blit_rgb888_writes w h pix dstW dstH x y = []) ∧
    (blit_rgb888_writes w h pix dstW dstH x y).length =
      3 * ((min (↑w - max 0 (-x)) (dstW - max x 0)).toNat *
           (min (↑h - max 0 (-y)) (dstH - max y 0)).toNat) ∧
    (∀ wr ∈ blit_rgb888_writes w h pix dstW dstH x y,
      0 ≤ wr.col ∧ wr.col < dstW ∧ 0 ≤ wr.row ∧ wr.row < dstH ∧
      max x 0 ≤ wr.col ∧
      wr.col < max x 0 + min (↑w - max 0 (-x)) (dstW - max x 0) ∧
      max y 0 ≤ wr.row ∧
      wr.row < max y 0 + min (↑h - max 0 (-y)) (dstH - max y 0) ∧
      wr.chan < 3) ∧
    (∀ a : Int,
      (∀ wr ∈ blit_rgb888_writes w h pix dstW dstH x y,
        writeAddr stride wr ≠ a) →
      applyWrites stride (blit_rgb888_writes w h pix dstW dstH x y) buf a = buf a) := by
  rw [blit_rgb888_writes_eq]
  by_cases hempty : min (↑w - max 0 (-x)) (dstW - max x 0) ≤ 0 ∨
      min (↑h - max 0 (-y)) (dstH - max y 0) ≤ 0
  · rw [if_pos hempty]
    refine ⟨fun _ => rfl, ?_, by simp, fun a _ => rfl⟩
    simp only [List.length_nil]
    rcases hempty with hc | hc <;> rw [Int.toNat_of_nonpos hc] <;> ring
  · rw [if_neg hempty]
    refine ⟨fun hc => absurd hc hempty, ?_, ?_, fun a hna => applyWrites_frame hna buf⟩
    · rw [length_nested]
      ring
    · intro wr hwr
      simp only [List.mem_flatMap, List.mem_map, List.mem_range] at hwr
      obtain ⟨j, hj, i, hi, ch, hch, rfl⟩ := hwr
      dsimp only
      omega

/-- Witness for C2 at a concrete input: an origin fully right of a 1×1
destination (`x = 5`) makes the clipped width non-positive, so the copy
writes nothing. -/
theorem claim_C2_blit_copy_clipping_witness :
    blit_rgb888_writes 1 1 pixExample 1 1 5 0 = [] :=
  (claim_C2_blit_copy_clipping 1 1 pixExample 1 1 5 0 3
    (fun _ => 0)).1 (by decide)

lemma byte_index_decomp (w h n : Nat) (hn : n < 3 * w * h) :
    ∃ j < h, ∃ i < w, ∃ ch < 3, n = j * (w * 3) + i * 3 + ch := by
  have hw : 0 < w := by
    rcases Nat.eq_zero_or_pos w with rfl | hw
    · simp at hn
    · exact hw
  have h3 : n < w * h * 3 := by
    calc n < 3 * w * h := hn
      _ = w * h * 3 := by ring
  have hq : n / 3 < w * h := (Nat.div_lt_iff_lt_mul (by norm_num)).mpr h3
  have hj : n / 3 / w < h := by
    rw [Nat.div_lt_iff_lt_mul hw]
    calc n / 3 < w * h := hq
      _ = h * w := by ring
  refine ⟨n / 3 / w, hj, n / 3 % w, Nat.mod_lt _ hw, n % 3,
    Nat.mod_lt _ (by norm_num), ?_⟩
  have h1 := Nat.div_add_mod n 3
  have h2 := Nat.div_add_mod (n / 3) w
  calc n = 3 * (n / 3) + n % 3 := h1.symm
    _ = 3 * (w * (n / 3 / w) + n / 3 % w) + n % 3 := by rw [h2]
    _ = n / 3 / w * (w * 3) + n / 3 % w * 3 + n % 3 := by ring

/-- C7: for every image, `blit_copy` called with origin `(0, 0)` on a
destination of exactly `width × height` pixels and stride `width * 3`
bytes writes exactly `width * height * 3` bytes, and afterwards every
destination byte in the table range equals the corresponding source
byte. -/
theorem claim_C7_full_copy_identity (w h : Nat) (pix : Int → Nat)
    (buf : Int → Nat) :
    (blit_rgb888_writes w h pix ↑w ↑h 0 0).length = w * h * 3 ∧
    (∀ a : Int, 0 ≤ a → a < 3 * (↑w : Int) * ↑h →
      applyWrites (↑w * 3) (blit_rgb888_writes w h pix ↑w ↑h 0 0) buf a = pix a) := by
  rcases Nat.eq_zero_or_pos w with rfl | hw
  · rw [blit_rgb888_writes_eq, if_pos (by omega)]
    exact ⟨by simp, fun a h1 h2 => by omega⟩
  rcases Nat.eq_zero_or_pos h with rfl | hh
  · rw [blit_rgb888_writes_eq, if_pos (by omega)]
    refine ⟨by simp, fun a h1 h2 => ?_⟩
    simp only [Nat.cast_zero, mul_zero] at h2
    omega
  have hL : blit_rgb888_writes w h pix ↑w ↑h 0 0 =
      (List.range h).flatMap (fun (j : Nat) =>
        (List.range w).flatMap (fun (i : Nat) =>
          (List.range 3).map (fun (ch : Nat) =>
            let sIdx : Int := ↑j * (↑w * 3) + ↑i * 3 + ↑ch
            { row := ↑j, col := ↑i, chan := ch, sIdx := sIdx, val := pix sIdx }))) := by
    rw [blit_rgb888_writes_eq, if_neg (by omega)]
    simp only [neg_zero, max_self, sub_zero, min_self, zero_add, add_zero,
      Int.toNat_natCast]
  rw [hL]
  constructor
  · rw [length_nested]
    ring
  · intro a ha0 ha1
    have han : a.toNat < 3 * w * h := by
      have hcast : ((3 * w * h : Nat) : Int) = 3 * (↑w : Int) * ↑h := by push_cast; ring
      omega
    obtain ⟨j, hj, i, hi, ch, hch, hn⟩ := byte_index_decomp w h a.toNat han
    have hacast : a = ↑j * (↑w * 3) + ↑i * 3 + (↑ch : Int) := by
      have h2 : ((a.toNat : Nat) : Int) = ((j * (w * 3) + i * 3 + ch : Nat) : Int) :=
        congrArg _ hn
      rw [Int.toNat_of_nonneg ha0] at h2
      push_cast at h2
      linarith
    refine applyWrites_hit pix ?_ ?_ buf
    · intro wr hwr heq
      simp only [List.mem_flatMap, List.mem_map, List.mem_range] at hwr
      obtain ⟨j2, hj2, i2, hi2, ch2, hch2, rfl⟩ := hwr
      dsimp only [writeAddr] at heq
      dsimp only
      rw [show (↑j2 * (↑w * 3) + ↑i2 * 3 + (↑ch2 : Int)) = a from heq]
    · refine ⟨BlitWrite.mk (↑j) (↑i) ch (↑j * (↑w * 3) + ↑i * 3 + (↑ch : Int))
          (pix (↑j * (↑w * 3) + ↑i * 3 + (↑ch : Int))), ?_, ?_⟩
      · simp only [List.mem_flatMap, List.mem_map, List.mem_range]
        exact ⟨j, hj, i, hi, ch, hch, rfl⟩
      · dsimp only [writeAddr]
        omega

/-- Witness for C7 at a concrete input: a 1×1 image copied at `(0, 0)`
into a 1×1 destination writes 3 bytes and byte 0 of the destination
equals byte 0 of the table. -/
theorem claim_C7_full_copy_identity_witness :
    (blit_rgb888_writes 1 1 pixExample 1 1 0 0).length = 1 * 1 * 3 ∧
    applyWrites (1 * 3) (blit_rgb888_writes 1 1 pixExample 1 1 0 0)
      (fun _ => 0) 0 = pixExample 0 :=
  ⟨(claim_C7_full_copy_identity 1 1 pixExample (fun _ => 0)).1,
   (claim_C7_full_copy_identity 1 1 pixExample (fun _ => 0)).2 0
     (by decide) (by decide)⟩

lemma table_index_bound {w h Y X : Int} (hY0 : 0 ≤ Y) (hY : Y < h) (hX0 : 0 ≤ X)
    (hX : X < w) {ch : Nat} (hch : ch < 3) :
    0 ≤ Y * (w * 3) + X * 3 + (ch : Int) ∧
    Y * (w * 3) + X * 3 + (ch : Int) < 3 * w * h := by
  have hw3 : (0 : Int) ≤ w * 3 := by omega
  have h1 : 0 ≤ Y * (w * 3) := mul_nonneg hY0 hw3
  have h2 : Y * (w * 3) ≤ (h - 1) * (w * 3) :=
    mul_le_mul_of_nonneg_right (by omega) hw3
  have h3 : (h - 1) * (w * 3) = 3 * w * h - 3 * w := by ring
  rw [h3] at h2
  have h4 : X * 3 ≤ 3 * w - 3 := by omega
  have h5 : (0 : Int) ≤ (ch : Int) := by omega
  have h6 : (ch : Int) ≤ 2 := by omega
  constructor
  · have h7 : (0 : Int) ≤ X * 3 := by omega
    linarith
  · linarith

lemma unscaled_window_sIdx_bound {w h : Nat} {dstW dstH x y : Int} {j i ch : Nat}
    (hj : j < (min (↑h - max 0 (-y)) (dstH - max y 0)).toNat)
    (hi : i < (min (↑w - max 0 (-x)) (dstW - max x 0)).toNat)
    (hch : ch < 3) :
    0 ≤ (max 0 (-y) + ↑j) * (↑w * 3) + (max 0 (-x) + ↑i) * 3 + (↑ch : Int) ∧
    (max 0 (-y) + ↑j) * (↑w * 3) + (max 0 (-x) + ↑i) * 3 + (↑ch : Int) <
      3 * ↑w * ↑h :=
  table_index_bound (by omega) (by omega) (by omega) (by omega) hch

lemma scaled_window_sIdx_bound {w h : Nat} {scale dstW dstH x y : Int}
    (hs : 1 ≤ scale) {jy jx ch : Nat}
    (hjy : jy < (min (y + ↑h * scale) dstH - max y 0).toNat)
    (hjx : jx < (min (x + ↑w * scale) dstW - max x 0).toNat)
    (hch : ch < 3) :
    0 ≤ ((max y 0 + ↑jy - y) / scale * ↑w + (max x 0 + ↑jx - x) / scale) * 3 +
        (↑ch : Int) ∧
    ((max y 0 + ↑jy - y) / scale * ↑w + (max x 0 + ↑jx - x) / scale) * 3 +
        (↑ch : Int) < 3 * ↑w * ↑h := by
  have hY0 : 0 ≤ (max y 0 + ↑jy - y) / scale := Int.ediv_nonneg (by omega) (by omega)
  have hY : (max y 0 + ↑jy - y) / scale < ↑h :=
    Int.ediv_lt_of_lt_mul (by omega) (by omega)
  have hX0 : 0 ≤ (max x 0 + ↑jx - x) / scale := Int.ediv_nonneg (by omega) (by omega)
  have hX : (max x 0 + ↑jx - x) / scale < ↑w :=
    Int.ediv_lt_of_lt_mul (by omega) (by omega)
  have hb := table_index_bound (w := ↑w) (h := ↑h) hY0 hY hX0 hX hch
  have heq : ((max y 0 + ↑jy - y) / scale * ↑w + (max x 0 + ↑jx - x) / scale) * 3 +
      (↑ch : Int) =
      (max y 0 + ↑jy - y) / scale * (↑w * 3) + (max x 0 + ↑jx - x) / scale * 3 +
      (↑ch : Int) := by ring
  rw [heq]
  exact hb

lemma blit_rgb888_scaled_writes_empty (w h : Nat) (pix : Int → Nat) {scale : Int}
    (hs : scale ≤ 0) (dstW dstH x y : Int) :
    blit_rgb888_scaled_writes w h pix scale dstW dstH x y = [] := by
  rw [blit_rgb888_scaled_writes_eq, if_pos]
  left
  have hws : (↑w : Int) * scale ≤ 0 :=
    mul_nonpos_iff.mpr (Or.inl ⟨Int.natCast_nonneg w, hs⟩)
  omega

/-- C10: every read of the embedded pixel table performed by the three
blit routines is within the table's bounds `[0, width*height*3)`, for
every origin `(x, y)`, destination descriptor, alpha, background and
scale (the standalone scaled routine is only generated for scale factors
2–16; for the scaled routine the statement covers every scale, a
non-positive scale yielding an empty clipped window). -/
theorem claim_C10_table_reads_in_bounds (w h : Nat) (pix : Int → Nat)
    (dstW dstH x y : Int) (alpha bgR bgG bgB : Nat) (scale scaleA : Int) :
    (∀ wr ∈ blit_rgb888_writes w h pix dstW dstH x y,
      0 ≤ wr.sIdx ∧ wr.sIdx < 3 * ↑w * ↑h) ∧
    (∀ wr ∈ blit_rgb888_scaled_writes w h pix scale dstW dstH x y,
      0 ≤ wr.sIdx ∧ wr.sIdx < 3 * ↑w * ↑h) ∧
    (∀ wr ∈ blit_rgb888_alpha_writes w h pix dstW dstH x y alpha bgR bgG bgB scaleA,
      0 ≤ wr.sIdx ∧ wr.sIdx < 3 * ↑w * ↑h) := by
  refine ⟨?_, ?_, ?_⟩
  · intro wr hwr
    rw [blit_rgb888_writes_eq] at hwr
    split_ifs at hwr with hg
    · simp at hwr
    · simp only [List.mem_flatMap, List.mem_map, List.mem_range] at hwr
      obtain ⟨j, hj, i, hi, ch, hch, rfl⟩ := hwr
      exact unscaled_window_sIdx_bound hj hi hch
  · intro wr hwr
    by_cases hs : 1 ≤ scale
    · rw [blit_rgb888_scaled_writes_eq] at hwr
      split_ifs at hwr with hg
      · simp at hwr
      · simp only [List.mem_flatMap, List.mem_map, List.mem_range] at hwr
        obtain ⟨jy, hjy, jx, hjx, ch, hch, rfl⟩ := hwr
        exact scaled_window_sIdx_bound hs hjy hjx hch
    · rw [blit_rgb888_scaled_writes_empty w h pix (by omega) dstW dstH x y] at hwr
      simp at hwr
  · intro wr hwr
    rw [blit_rgb888_alpha_writes_eq] at hwr
    split_ifs at hwr with hs hg hg
    · simp at hwr
    · simp only [List.mem_flatMap, List.mem_map, List.mem_range] at hwr
      obtain ⟨j, hj, i, hi, ch, hch, rfl⟩ := hwr
      exact unscaled_window_sIdx_bound hj hi hch
    · simp at hwr
    · simp only [List.mem_flatMap, List.mem_map, List.mem_range] at hwr
      obtain ⟨jy, hjy, jx, hjx, ch, hch, rfl⟩ := hwr
      exact scaled_window_sIdx_bound (by omega) hjy hjx hch

/-- Pixel table of the 2×1 example image: pixel 0 is `(10, 20, 30)` and
pixel 1 is `(40, 50, 60)`. -/
def pixExample2 : Int → Nat :=
  fun i =>
    if i = 0 then 10 else if i = 1 then 20 else if i = 2 then 30
    else if i = 3 then 40 else if i = 4 then 50 else 60

/-- C4: for every origin `(x, y)`, `blit_copy_scaled` clips the placed
rectangle of size `(width*scale, height*scale)` to the destination
bounds by min/max clamping; every write lands in that clipped window and
copies verbatim the channels of source pixel
`((col - x) / scale, (row - y) / scale)` under integer division, and
conversely every pixel of the clipped window receives all three channels
of that source pixel; in particular `scale = 2` on a 2×1 source placed
at `(0, 0)` into a 4×1 destination writes 4 pixels, columns 0–1 from
source pixel 0 and columns 2–3 from source pixel 1. -/
theorem claim_C4_scaled_mapping (w h : Nat) (pix : Int → Nat)
    (scale dstW dstH x y : Int) :
    (∀ wr ∈ blit_rgb888_scaled_writes w h pix scale dstW dstH x y,
      max x 0 ≤ wr.col ∧ wr.col < min (x + ↑w * scale) dstW ∧
      max y 0 ≤ wr.row ∧ wr.row < min (y + ↑h * scale) dstH ∧
      wr.chan < 3 ∧
      wr.sIdx = ((wr.row - y) / scale * ↑w + (wr.col - x) / scale) * 3 + ↑wr.chan ∧
      wr.val = pix (((wr.row - y) / scale * ↑w + (wr.col - x) / scale) * 3 + ↑wr.chan)) ∧
    (∀ dx dy : Int, ∀ ch : Nat,
      max x 0 ≤ dx → dx < min (x + ↑w * scale) dstW →
      max y 0 ≤ dy → dy < min (y + ↑h * scale) dstH → ch < 3 →
      BlitWrite.mk dy dx ch (((dy - y) / scale * ↑w + (dx - x) / scale) * 3 + ↑ch)
          (pix (((dy - y) / scale * ↑w + (dx - x) / scale) * 3 + ↑ch)) ∈
        blit_rgb888_scaled_writes w h pix scale dstW dstH x y) ∧
    blit_rgb888_scaled_writes 2 1 pixExample2 2 4 1 0 0 =
      [⟨0, 0, 0, 0, 10⟩, ⟨0, 0, 1, 1, 20⟩, ⟨0, 0, 2, 2, 30⟩,
       ⟨0, 1, 0, 0, 10⟩, ⟨0, 1, 1, 1, 20⟩, ⟨0, 1, 2, 2, 30⟩,
       ⟨0, 2, 0, 3, 40⟩, ⟨0, 2, 1, 4, 50⟩, ⟨0, 2, 2, 5, 60⟩,
       ⟨0, 3, 0, 3, 40⟩, ⟨0, 3, 1, 4, 50⟩, ⟨0, 3, 2, 5, 60⟩] := by
  refine ⟨?_, ?_, by decide⟩
  · intro wr hwr
    rw [blit_rgb888_scaled_writes_eq] at hwr
    split_ifs at hwr with hg
    · simp at hwr
    · simp only [List.mem_flatMap, List.mem_map, List.mem_range] at hwr
      obtain ⟨jy, hjy, jx, hjx, ch, hch, rfl⟩ := hwr
      refine ⟨by dsimp only; omega, by dsimp only; omega,
        by dsimp only; omega, by dsimp only; omega, hch, ?_, ?_⟩
      · rfl
      · rfl
  · intro dx dy ch hx0 hx1 hy0 hy1 hch
    rw [blit_rgb888_scaled_writes_eq, if_neg (by omega)]
    simp only [List.mem_flatMap, List.mem_map, List.mem_range]
    refine ⟨(dy - max y 0).toNat, by omega, (dx - max x 0).toNat, by omega,
      ch, hch, ?_⟩
    have hdy : max y 0 + ↑((dy - max y 0).toNat) = dy := by omega
    have hdx : max x 0 + ↑((dx - max x 0).toNat) = dx := by omega
    rw [hdy, hdx]

/-- Witness for C4 at a concrete input: on the 2×1 example image scaled
by 2 into a 4×1 destination, destination pixel `(0, 0)` channel 0
receives byte 0 of the table (value 10). -/
theorem claim_C4_scaled_mapping_witness :
    (⟨0, 0, 0, 0, 10⟩ : BlitWrite) ∈
      blit_rgb888_scaled_writes 2 1 pixExample2 2 4 1 0 0 :=
  (claim_C4_scaled_mapping 2 1 pixExample2 2 4 1 0 0).2.1 0 0 0
    (by decide) (by decide) (by decide) (by decide) (by decide)

/-! ## Encoding layer (pixel table emission and decoding) -/

/-- An image as normalized by the pixel source adapter: dimensions plus
the flat row-major, channel-interleaved byte buffer
(`img.tobytes()` of the RGB-converted image). -/
structure PImage where
  width : Nat
  height : Nat
  data : List Nat
deriving DecidableEq, Repr

/-- Byte grouping performed by `format_pixel_array`: the table bytes are
emitted in order, 16 per source line (`pixels[i:i+16]` for
`i = 0, 16, 32, ...`).  Only the grouping is modelled; each group is
rendered as comma-separated hex literals on one line. -/
def chunks16 : List Nat → List (List Nat)
  | [] => []
  | l@(_ :: _) => l.take 16 :: chunks16 (l.drop 16)
termination_by l => l.length
decreasing_by simp_all; omega

lemma flatten_chunks16 (l : List Nat) : (chunks16 l).flatten = l := by
  induction l using chunks16.induct with
  | case1 => simp [chunks16]
  | case2 a t ih =>
      rw [chunks16]
      simp only [List.flatten_cons, ih, List.take_append_drop]

/-- Code points of the hex rendering of one table byte as produced by
`format_pixel_array`: the Python format `0x{b:02x}` (for byte values
`< 256` the two lowercase hex digits). -/
def hexDigitCp (n : Nat) : Nat := if n < 10 then 48 + n else 87 + n

/-- Rendering of a single byte `b < 256` as the four code points of
`0x` followed by two lowercase hex digits. -/
def byteHexCps (b : Nat) : List Nat :=
  [48, 120, hexDigitCp (b / 16 % 16), hexDigitCp (b % 16)]

/-- Value of one hex-digit code point (inverse of `hexDigitCp` on the
digits that occur). -/
def hexDigitVal (c : Nat) : Nat :=
  if 48 ≤ c ∧ c ≤ 57 then c - 48
  else if 97 ≤ c ∧ c ≤ 102 then c - 87
  else 0

/-- Parse the four code points of a rendered `0xhh` byte back to its
value. -/
def parseByteHex : List Nat → Nat
  | [_, _, d1, d2] => hexDigitVal d1 * 16 + hexDigitVal d2
  | _ => 0

/-- Decoding of the emitted pixel table with the declared dimensions,
following the spec's round-trip description (the repository emits the
table but contains no decoder): the table bytes are taken verbatim as
the row-major, channel-interleaved buffer of an image with the declared
dimensions. -/
def decode_emitted_table (w h : Nat) (bytes : List Nat) : PImage :=
  ⟨w, h, bytes⟩

set_option maxRecDepth 4000 in
/-- C3: for every valid input image of dimensions `width × height`, the
emitted constant pixel table contains exactly `width*height*3` bytes
that are, in order, the image's pixel channel bytes (row-major,
channel-interleaved, no compression, no inter-row padding: flattening
the emitted 16-byte lines restores the byte buffer exactly), each byte's
hex rendering parses back to the byte, and decoding the emitted table
with the declared dimensions reproduces the original image exactly. -/
theorem claim_C3_encoding_lossless (img : PImage)
    (hlen : img.data.length = img.width * img.height * 3) :
    (chunks16 img.data).flatten = img.data ∧
    ((chunks16 img.data).flatten).length = img.width * img.height * 3 ∧
    decode_emitted_table img.width img.height ((chunks16 img.data).flatten) = img ∧
    (∀ b ∈ img.data, b < 256 → parseByteHex (byteHexCps b) = b) := by
  have hf := flatten_chunks16 img.data
  refine ⟨hf, by rw [hf, hlen], ?_, fun b _ hb => ?_⟩
  · rw [hf]
    cases img
    rfl
  · have hx : ∀ n, n < 256 → parseByteHex (byteHexCps n) = n := by decide
    exact hx b hb

/-- Witness for C3 at a concrete input: a 1×1 image with the byte buffer
`[10, 20, 30]` round-trips through the emitted table. -/
theorem claim_C3_encoding_lossless_witness :
    decode_emitted_table 1 1 ((chunks16 (PImage.mk 1 1 [10, 20, 30]).data).flatten) =
      PImage.mk 1 1 [10, 20, 30] :=
  (claim_C3_encoding_lossless ⟨1, 1, [10, 20, 30]⟩ (by decide)).2.2.1

/-! ## Compile driver (`convert_png_to_blit`) error behaviour -/

/-- Outcome of locating and decoding the input image, the two
environment interactions of `convert_png_to_blit`:
`missing` models `os.path.isfile(input_path)` returning false,
`openError` models `Image.open` raising, and `decoded img` models a
successful decode followed by the RGB conversion and `tobytes()`. -/
inductive DecodeOutcome where
  | missing : DecodeOutcome
  | openError : DecodeOutcome
  | decoded : PImage → DecodeOutcome
deriving DecidableEq

/-- The compile step's failure mode (the spec's `InvalidImageError`,
realized in the script as an error message plus `sys.exit(1)`). -/
inductive CompileError where
  | invalidImage : CompileError
deriving DecidableEq

/-- The content of the two textual artifacts, reduced to the data they
embed: the sanitized identifier, the two dimension constants, and the
bytes of the emitted pixel table. -/
structure Artifacts where
  ident : List Nat
  declaredW : Nat
  declaredH : Nat
  tableBytes : List Nat
deriving DecidableEq

/-- Model of `convert_png_to_blit` from `scripts/png2blit.py`: a missing
input file or an exception from the image decoder aborts with
`sys.exit(1)` before any output file is opened, so no partial artifact
is ever written (modelled as the error result); otherwise the header and
source artifacts are generated from the decoded image.  The script
contains no check of the decoded image's dimensions. -/
def convert_png_to_blit (r : DecodeOutcome) (name : List Nat) :
    Except CompileError Artifacts :=
  match r with
  | .missing => .error .invalidImage
  | .openError => .error .invalidImage
  | .decoded img =>
      .ok ⟨sanitize_c_identifier name, img.width, img.height,
           (chunks16 img.data).flatten⟩

/-- C8 counterexample: a decoded image with zero width and zero height is
not rejected — the compile step succeeds and emits artifacts (dimension
constants 0 and an empty pixel table), contradicting the claim that a
zero-dimensioned source fails with `InvalidImageError`. -/
theorem claim_C8_zero_dim_not_rejected :
    convert_png_to_blit (.decoded ⟨0, 0, []⟩) defaultIdent =
      .ok ⟨defaultIdent, 0, 0, []⟩ ∧
    convert_png_to_blit (.decoded ⟨0, 0, []⟩) defaultIdent ≠
      .error .invalidImage := by
  have h1 : sanitize_c_identifier defaultIdent = defaultIdent := by decide
  have h2 : chunks16 [] = [] := by simp [chunks16]
  constructor
  · simp [convert_png_to_blit, h1, h2]
  · simp [convert_png_to_blit]

/-- C8 (amended): the compile step fails with `InvalidImageError` exactly
when the source image is missing or cannot be decoded, and on such a
failure no artifact is written (the failure precedes both file writes);
a decoded image with zero width or zero height is not rejected and
produces complete artifacts. -/
theorem claim_C8_error_handling_amended (r : DecodeOutcome) (name : List Nat) :
    (convert_png_to_blit r name = .error .invalidImage ↔
      (r = .missing ∨ r = .openError)) ∧
    (∀ img, r = .decoded img →
      convert_png_to_blit r name =
        .ok ⟨sanitize_c_identifier name, img.width, img.height,
             (chunks16 img.data).flatten⟩) := by
  cases r <;> simp [convert_png_to_blit]

/-- Witness for the amended C8 at a concrete input: a decoded 1×1 image
yields the success artifacts. -/
theorem claim_C8_error_handling_amended_witness :
    convert_png_to_blit (.decoded ⟨1, 1, [10, 20, 30]⟩) defaultIdent =
      .ok ⟨sanitize_c_identifier defaultIdent, 1, 1,
           (chunks16 [10, 20, 30]).flatten⟩ :=
  (claim_C8_error_handling_amended (.decoded ⟨1, 1, [10, 20, 30]⟩)
    defaultIdent).2 ⟨1, 1, [10, 20, 30]⟩ rfl

/-- Witness for C9 at a concrete input: the sanitized form of `"123"`
starts with the prepended underscore, which is not a digit. -/
theorem claim_C9_sanitize_total_witness : pyIsDigit 95 = false :=
  (claim_C9_sanitize_total [49, 50, 51]).2.2.1 95 [49, 50, 51] (by decide)

/-- Witness for C10 at a concrete input: the first write of the 1×1 copy
reads table byte 0, which is inside `[0, 3)`. -/
theorem claim_C10_table_reads_in_bounds_witness :
    0 ≤ (BlitWrite.mk 0 0 0 0 200).sIdx ∧
    (BlitWrite.mk 0 0 0 0 200).sIdx < 3 * (1 : Nat) * (1 : Nat) :=
  (claim_C10_table_reads_in_bounds 1 1 pixExample 1 1 0 0 0 0 0 0 2 2).1
    ⟨0, 0, 0, 0, 200⟩ (by decide)
